import Mathlib

/-!
Shallow embedding of the lazy record-resolution protocol of the subdb
multi-dimensional database core, together with the external record and
storage contracts it consumes.

Embedded source:
- `src/world/iter.rs`: the error taxonomy of the iterator module, the
  `Lazy` deferred value handle with its `get_or_init` resolution
  protocol, and the `FromBytes` bounded-length read-and-decode future.
- `src/lib.rs`: the `Data` record contract, its built-in implementation
  for `[u64; DIMS]`, and the `IoHandle` storage contract with its
  defaulted `hint_is_valid` cache-validity hint.

Modelling conventions: `u64`/`usize` values are `Nat` (the embedded code
performs no wrapping arithmetic on them, only equality comparisons,
indexing and copies); byte buffers are lists of `Nat`; asynchronous
reads are modelled by their one-shot outcome (the pair of the number of
bytes actually placed in the buffer and the resulting buffer contents);
the weak reference to the live generation counter is modelled by the
`Option Nat` outcome of upgrading it and loading the atomic; the
mutable `OnceLock` value slot and the `Mutex<Option<reader>>` slot of a
`Lazy` handle form an explicit state record threaded through
`get_or_init`; a Rust panic is a distinguished outcome constructor.
-/

namespace SubDB

/-- Byte buffers (`bytes::BytesMut` / frozen `Bytes`) as lists of byte values. -/
abbrev Bytes := List Nat

/-- Embedding of `futures_lite::io::Error` as the read/decode paths produce it:
the `UnexpectedEof` error built at `iter.rs:149-152` carries the actual and the
expected read lengths; every other I/O failure is an opaque code. -/
inductive IoErr where
  | unexpectedEof (actLen : Nat) (expectedLen : Nat)
  | other (code : Nat)
deriving DecidableEq, Repr

/-- Embedding of `world::iter::Error` (`iter.rs:25-38`): I/O failure, value
taken twice, value not found, and scan staleness with the snapshot generation
and the (possibly dead) live generation. -/
inductive Error where
  | Io (e : IoErr)
  | ValueTaken
  | ValueNotFound
  | IterUpdated (expected : Nat) (current : Option Nat)
deriving DecidableEq, Repr

/-- Embedding of `world::iter::Value` (`iter.rs:56-59`): a resolved value is
either a borrowed reference into a live chunk (`Ref`) or an owned decoded
value (`Direct`). -/
inductive Value (T : Type) where
  | Ref (val : T)
  | Direct (val : T)
deriving DecidableEq, Repr

/-- Embedding of `world::iter::ReadType` (`iter.rs:20-23`): a handle is backed
either by an in-memory chunk record at the given chunk position, or by a
pending raw payload of the given byte length. -/
inductive ReadType where
  | Mem (chunk : List Nat)
  | Io (len : Nat)
deriving DecidableEq, Repr

/-- Embedding of `world::iter::LazyCheckState` (`iter.rs:51-54`). The weak
link plus atomic load `self.state.current.upgrade().map(load)` is modelled by
its outcome `current : Option Nat`; `expected` is the generation snapshot
captured when the originating scan began. -/
structure LazyCheckState where
  current : Option Nat
  expected : Nat
deriving DecidableEq, Repr

/-- The mutable parts of a `Lazy` handle (`iter.rs:41-49`): the `OnceLock`
value slot and the `Mutex<Option<Pin<&mut Io::Read>>>` reader slot, threaded
explicitly through `get_or_init`. `ρ` is the abstract backing-reader type. -/
structure LazyState (T ρ : Type) where
  value : Option (Value T)
  read : Option ρ
deriving DecidableEq, Repr

/-- Outcome of one `get_or_init` call: a resolved value, an `Error`, or a Rust
panic (the `.unwrap()` on the already-taken reader at `iter.rs:112`). -/
inductive Outcome (T : Type) where
  | ok (v : Value T)
  | err (e : Error)
  | panic (msg : String)
deriving DecidableEq, Repr

/-- Embedding of `FromBytes::poll` (`iter.rs:142-169`). The first poll
allocates a zero-filled buffer of exactly `len` bytes and issues the read; the
read outcome `readRes` is the result of polling the backing reader with that
buffer (number of bytes placed, resulting buffer). A read error propagates; a
read of `actLen ≠ len` bytes fails with `UnexpectedEof`; otherwise the frozen
buffer is decoded. `decodeCall` is the decode invocation exactly as the source
writes it at `iter.rs:162`: `T::decode(this.dims, buf)` — applied to the
engine-supplied dims and the buffer only (the `FromBytes` future carries no
format version field). -/
def fromBytesPoll {T : Type} (decodeCall : List Nat → Bytes → Except IoErr T)
    (dims : List Nat) (len : Nat)
    (readRes : Except IoErr (Nat × Bytes)) : Except IoErr T :=
  match readRes with
  | .error e => .error e
  | .ok (actLen, buf) =>
    if actLen ≠ len then
      .error (.unexpectedEof actLen len)
    else
      decodeCall dims buf

/-- Embedding of `Lazy::get_or_init` (`iter.rs:70-128`).

Parameters standing for the handle's environment: `worldGet` is
`World::get(&chunk, key)` restricted to its outcome (the record found at the
dimension-0 key inside the chunk, if any); `runRead` maps the backing reader
and the buffer length to the one-shot read outcome; `decodeCall` is the decode
invocation of `FromBytes`; `dims` is the handle's dimensional values; `rt` its
`ReadType`; `chk` its staleness-check state. The mutable slots `s` are
threaded: the call returns the outcome together with the updated slots.

Faithful control flow: (1) a set value slot returns the cached value at once;
(2) the `Mem` path looks the record up and installs a `Ref`, with no staleness
check; (3) the `Io` path first compares the upgraded live generation against
the snapshot and fails with `IterUpdated` on mismatch, then takes the reader
out of its slot — panicking on `.unwrap()` if it was already taken — and runs
`FromBytes`, installing a `Direct` value on success. -/
def getOrInit {T ρ : Type} (worldGet : List Nat → Nat → Option T)
    (runRead : ρ → Nat → Except IoErr (Nat × Bytes))
    (decodeCall : List Nat → Bytes → Except IoErr T)
    (dims : List Nat) (rt : ReadType) (chk : LazyCheckState)
    (s : LazyState T ρ) : Outcome T × LazyState T ρ :=
  match s.value with
  | some v => (.ok v, s)
  | none =>
    match rt with
    | .Mem chunk =>
      match worldGet chunk (dims.headD 0) with
      | none => (.err .ValueNotFound, s)
      | some r => (.ok (.Ref r), { s with value := some (.Ref r) })
    | .Io len =>
      if chk.current ≠ some chk.expected then
        (.err (.IterUpdated chk.expected chk.current), s)
      else
        match s.read with
        | none => (.panic "called Option::unwrap on a None value", s)
        | some rd =>
          match fromBytesPoll decodeCall dims len (runRead rd len) with
          | .error e => (.err (.Io e), { s with read := none })
          | .ok t => (.ok (.Direct t), { value := some (.Direct t), read := none })

/-- Embedding of the defaulted `IoHandle::hint_is_valid` (`lib.rs:86-90`): the
body discards the position and returns `true`. -/
def hint_is_valid_default (pos : List Nat) : Bool :=
  let _ := pos
  true

/-- Modelled from the spec: the chunk cache (its module is absent from `src/`;
spec section 4.3) consults `hint_is_valid` before trusting an already-loaded
chunk — an already-cached chunk is reused exactly when the hint holds at its
coordinate. -/
def cacheTrustsLoaded (hint : List Nat → Bool) (pos : List Nat) : Bool :=
  hint pos

/-- Wrapper for a Rust computation that may panic instead of returning. -/
inductive PanicOr (α : Type) where
  | panic (msg : String)
  | value (a : α)
deriving DecidableEq, Repr

/-- The `VERSION` of the built-in `impl Data for [u64; DIMS]` (`lib.rs:51`). -/
def ARRAY_VERSION : Nat := 0

/-- The `dim` of the built-in `[u64; DIMS]` implementation (`lib.rs:58-60`):
`self[dim]`, modelled on the list representation of the array. -/
def arrayDim (x : List Nat) (i : Nat) : Nat :=
  x.getD i 0

/-- The `decode` of the built-in `[u64; DIMS]` implementation
(`lib.rs:63-67`): both the version and the payload buffer are discarded; a
fresh zero array is filled by `copy_from_slice(dims)`, which panics when the
slice length differs from `DIMS` and otherwise makes the result exactly
`dims`. -/
def arrayDecode (DIMS : Nat) (_version : Nat) (dims : List Nat) (_buf : Bytes) :
    PanicOr (Except IoErr (List Nat)) :=
  if dims.length = DIMS then
    .value (.ok dims)
  else
    .panic "copy_from_slice: source slice length does not match destination"

/-- The `encode` of the built-in `[u64; DIMS]` implementation
(`lib.rs:70-72`): it writes nothing into the buffer and returns `Ok(())`;
modelled as returning the untouched buffer. -/
def arrayEncode (_x : List Nat) (buf : Bytes) : Except IoErr Bytes :=
  .ok buf

/-- The dimensional values the engine reconstructs for a record `x` from the
chunk/key context: the sequence `x.dim 0, …, x.dim (DIMS - 1)`. -/
def dimsOfArray (DIMS : Nat) (x : List Nat) : List Nat :=
  (List.range DIMS).map (arrayDim x)

theorem range_map_getD (x : List Nat) :
    (List.range x.length).map (fun i => x.getD i 0) = x := by
  induction x with
  | nil => rfl
  | cons a t ih =>
    rw [List.length_cons, List.range_succ_eq_map, List.map_cons, List.map_map]
    simp only [Function.comp_def, List.getD_cons_zero, List.getD_cons_succ]
    rw [ih]

/-- C2: `get_or_init` is idempotent: on a handle whose value slot is already
resolved, the call returns exactly the cached value and leaves the state
unchanged, whatever the world lookup, the reader, the decoder and the
generation-counter state are — so no staleness check, no storage read and no
decode can have taken place. -/
theorem get_or_init_idempotent {T ρ : Type} (worldGet : List Nat → Nat → Option T)
    (runRead : ρ → Nat → Except IoErr (Nat × Bytes))
    (decodeCall : List Nat → Bytes → Except IoErr T)
    (dims : List Nat) (rt : ReadType) (chk : LazyCheckState)
    (s : LazyState T ρ) (v : Value T) (hval : s.value = some v) :
    getOrInit worldGet runRead decodeCall dims rt chk s = (.ok v, s) := by
  obtain ⟨sv, sr⟩ := s
  simp only [LazyState.value] at hval
  subst hval
  rfl

/-- Witness for C2 at a concrete resolved handle. -/
theorem get_or_init_idempotent_w :
    getOrInit (T := Nat) (ρ := Unit) (fun _ _ => none) (fun _ _ => .ok (0, []))
      (fun _ _ => .ok 0) [7] (.Io 4) ⟨some 1, 1⟩ ⟨some (.Direct 42), none⟩
      = (.ok (.Direct 42), ⟨some (.Direct 42), none⟩) :=
  get_or_init_idempotent _ _ _ _ _ _ _ _ rfl

/-- C1: on a raw-payload (`Io`) backed handle with an unresolved value, the
live generation is compared against the scan-start snapshot first, and a
mismatch fails with `IterUpdated` carrying the snapshot and the live value,
leaving the state untouched — for every possible reader and decoder, so no
read or decode of the payload is performed. -/
theorem stale_check_before_read {T ρ : Type} (worldGet : List Nat → Nat → Option T)
    (runRead : ρ → Nat → Except IoErr (Nat × Bytes))
    (decodeCall : List Nat → Bytes → Except IoErr T)
    (dims : List Nat) (len : Nat) (chk : LazyCheckState)
    (s : LazyState T ρ) (hval : s.value = none)
    (hstale : chk.current ≠ some chk.expected) :
    getOrInit worldGet runRead decodeCall dims (.Io len) chk s
      = (.err (.IterUpdated chk.expected chk.current), s) := by
  obtain ⟨sv, sr⟩ := s
  simp only [LazyState.value] at hval
  subst hval
  unfold getOrInit
  dsimp only
  rw [if_pos hstale]

/-- Witness for C1 at a concrete stale handle (snapshot 5, live counter 4). -/
theorem stale_check_before_read_w :
    getOrInit (T := Nat) (ρ := Unit) (fun _ _ => none) (fun _ _ => .ok (0, []))
      (fun _ _ => .ok 0) [7] (.Io 4) ⟨some 4, 5⟩ ⟨none, some ()⟩
      = (.err (.IterUpdated 5 (some 4)), ⟨none, some ()⟩) :=
  stale_check_before_read _ _ _ _ _ _ _ rfl (by decide)

/-- C9: when the weak link to the live generation counter can no longer be
upgraded, the raw-payload path of `get_or_init` fails with `IterUpdated`
carrying `current = none`, with the state untouched — for every possible
reader and decoder, so it never proceeds to read or decode. -/
theorem dropped_counter_fails {T ρ : Type} (worldGet : List Nat → Nat → Option T)
    (runRead : ρ → Nat → Except IoErr (Nat × Bytes))
    (decodeCall : List Nat → Bytes → Except IoErr T)
    (dims : List Nat) (len : Nat) (chk : LazyCheckState)
    (s : LazyState T ρ) (hval : s.value = none)
    (hdead : chk.current = none) :
    getOrInit worldGet runRead decodeCall dims (.Io len) chk s
      = (.err (.IterUpdated chk.expected none), s) := by
  obtain ⟨sv, sr⟩ := s
  simp only [LazyState.value] at hval
  subst hval
  unfold getOrInit
  dsimp only
  rw [hdead, if_pos (by simp)]

/-- Witness for C9 at a concrete handle whose counter has been dropped. -/
theorem dropped_counter_fails_w :
    getOrInit (T := Nat) (ρ := Unit) (fun _ _ => none) (fun _ _ => .ok (0, []))
      (fun _ _ => .ok 0) [7] (.Io 4) ⟨none, 5⟩ ⟨none, some ()⟩
      = (.err (.IterUpdated 5 none), ⟨none, some ()⟩) :=
  dropped_counter_fails _ _ _ _ _ _ _ rfl rfl

/-- C8: a staleness failure leaves the handle's mutable state unchanged: after
`get_or_init` fails with `IterUpdated` on a raw-payload handle, the value slot
is still unset and the reader slot still holds whatever it held, because the
generation check precedes both the reader take and the value install. -/
theorem stale_failure_preserves_state {T ρ : Type} (worldGet : List Nat → Nat → Option T)
    (runRead : ρ → Nat → Except IoErr (Nat × Bytes))
    (decodeCall : List Nat → Bytes → Except IoErr T)
    (dims : List Nat) (len : Nat) (chk : LazyCheckState)
    (s : LazyState T ρ) (hval : s.value = none)
    (hstale : chk.current ≠ some chk.expected) :
    (getOrInit worldGet runRead decodeCall dims (.Io len) chk s).2.value = none
      ∧ (getOrInit worldGet runRead decodeCall dims (.Io len) chk s).2.read = s.read := by
  obtain ⟨sv, sr⟩ := s
  simp only [LazyState.value] at hval
  subst hval
  unfold getOrInit
  dsimp only
  rw [if_pos hstale]
  exact ⟨rfl, rfl⟩

/-- Witness for C8 at a concrete stale handle with a still-present reader. -/
theorem stale_failure_preserves_state_w :
    (getOrInit (T := Nat) (ρ := Unit) (fun _ _ => none) (fun _ _ => .ok (0, []))
        (fun _ _ => .ok 0) [7] (.Io 4) ⟨some 9, 5⟩ ⟨none, some ()⟩).2.value = none
      ∧ (getOrInit (T := Nat) (ρ := Unit) (fun _ _ => none) (fun _ _ => .ok (0, []))
        (fun _ _ => .ok 0) [7] (.Io 4) ⟨some 9, 5⟩
        ⟨none, some ()⟩).2.read = some () :=
  stale_failure_preserves_state _ _ _ _ _ _ _ rfl (by decide)

/-- C5: a handle backed by an in-memory chunk record resolves directly to a
borrowed (`Ref`) value looked up in the live chunk at the handle's dimension-0
key, for every state of the generation counter — the staleness state is never
consulted on this path. -/
theorem mem_path_no_stale_check {T ρ : Type} (worldGet : List Nat → Nat → Option T)
    (runRead : ρ → Nat → Except IoErr (Nat × Bytes))
    (decodeCall : List Nat → Bytes → Except IoErr T)
    (dims : List Nat) (chunk : List Nat) (chk : LazyCheckState)
    (s : LazyState T ρ) (r : T) (hval : s.value = none)
    (hget : worldGet chunk (dims.headD 0) = some r) :
    getOrInit worldGet runRead decodeCall dims (.Mem chunk) chk s
      = (.ok (.Ref r), { s with value := some (.Ref r) }) := by
  obtain ⟨sv, sr⟩ := s
  simp only [LazyState.value] at hval
  subst hval
  unfold getOrInit
  dsimp only
  rw [hget]

/-- Witness for C5: a concrete in-memory record is resolved as a `Ref` even
though the generation counter has been dropped (counter state `none`). -/
theorem mem_path_no_stale_check_w :
    getOrInit (T := Nat) (ρ := Unit)
      (fun chunk key => if chunk = [2, 3] ∧ key = 7 then some 42 else none)
      (fun _ _ => .ok (0, [])) (fun _ _ => .ok 0) [7, 1] (.Mem [2, 3]) ⟨none, 5⟩
      ⟨none, none⟩
      = (.ok (.Ref 42), ⟨some (.Ref 42), none⟩) :=
  mem_path_no_stale_check _ _ _ _ _ _ _ _ rfl (by decide)

/-- C6: once the staleness check passes, the handle polls the backing reader
with a buffer of exactly the expected `len` bytes; a read whose actual length
differs from `len` fails with an `UnexpectedEof` I/O error (the reader having
been consumed), and a successful exact-length read followed by a successful
decode resolves the handle to an owned (`Direct`) value. -/
theorem io_read_exact_or_io_error {T ρ : Type} (worldGet : List Nat → Nat → Option T)
    (runRead : ρ → Nat → Except IoErr (Nat × Bytes))
    (decodeCall : List Nat → Bytes → Except IoErr T)
    (dims : List Nat) (len : Nat) (chk : LazyCheckState)
    (s : LazyState T ρ) (rd : ρ) (actLen : Nat) (buf : Bytes)
    (hval : s.value = none) (hfresh : chk.current = some chk.expected)
    (hrd : s.read = some rd) (hread : runRead rd len = .ok (actLen, buf)) :
    (actLen ≠ len →
      getOrInit worldGet runRead decodeCall dims (.Io len) chk s
        = (.err (.Io (.unexpectedEof actLen len)), { s with read := none }))
    ∧ (∀ t : T, actLen = len → decodeCall dims buf = .ok t →
      getOrInit worldGet runRead decodeCall dims (.Io len) chk s
        = (.ok (.Direct t), { value := some (.Direct t), read := none })) := by
  obtain ⟨sv, sr⟩ := s
  simp only [LazyState.value] at hval
  simp only [LazyState.read] at hrd
  subst hval
  subst hrd
  constructor
  · intro hne
    unfold getOrInit
    dsimp only
    rw [if_neg (by simp [hfresh]), hread]
    unfold fromBytesPoll
    dsimp only
    rw [if_pos hne]
  · intro t he hdec
    unfold getOrInit
    dsimp only
    rw [if_neg (by simp [hfresh]), hread]
    unfold fromBytesPoll
    dsimp only
    rw [if_neg (by simp [he]), hdec]

/-- Witness for C6, exercising the exact-read branch: a 2-byte payload read in
full decodes to an owned value. -/
theorem io_read_exact_or_io_error_w :
    (2 ≠ 2 →
      getOrInit (T := Nat) (ρ := Unit) (fun _ _ => none)
        (fun _ _ => .ok (2, [10, 20])) (fun _ buf => .ok buf.length) [7] (.Io 2)
        ⟨some 5, 5⟩ ⟨none, some ()⟩
        = (.err (.Io (.unexpectedEof 2 2)), ⟨none, none⟩))
    ∧ (∀ t : Nat, 2 = 2 →
      (fun (_ : List Nat) (buf : Bytes) => Except.ok (ε := IoErr) buf.length) [7] [10, 20] = .ok t →
      getOrInit (T := Nat) (ρ := Unit) (fun _ _ => none)
        (fun _ _ => .ok (2, [10, 20])) (fun _ buf => .ok buf.length) [7] (.Io 2)
        ⟨some 5, 5⟩ ⟨none, some ()⟩
        = (.ok (.Direct t), ⟨some (.Direct t), none⟩)) :=
  io_read_exact_or_io_error _ _ _ _ _ _ _ _ _ _ rfl rfl rfl rfl

/-- C4 (code bug): on a raw-payload handle whose backing reader has already
been taken, a `get_or_init` call that passes the staleness check panics on the
`.unwrap()` of the empty reader slot instead of returning the declared
`ValueTaken` error — the `ValueTaken` variant is never produced. Evaluated at
the concrete failing state (unresolved value, matching generation, reader slot
empty). -/
theorem taken_reader_panics :
    getOrInit (T := Nat) (ρ := Unit) (fun _ _ => none) (fun _ _ => .ok (0, []))
      (fun _ _ => .ok 0) [7] (.Io 4) ⟨some 5, 5⟩ ⟨none, none⟩
      = (.panic "called Option::unwrap on a None value", ⟨none, none⟩)
    ∧ (getOrInit (T := Nat) (ρ := Unit) (fun _ _ => none) (fun _ _ => .ok (0, []))
      (fun _ _ => .ok 0) [7] (.Io 4) ⟨some 5, 5⟩ ⟨none, none⟩).1
      ≠ .err Error.ValueTaken := by
  exact ⟨rfl, by decide⟩

/-- C3 (code bug): the decode invoked by `FromBytes` after a successful
exact-length raw read is applied to exactly the engine-supplied dimensional
values and the freshly read buffer — and to nothing else. In particular no
format version reaches the decoder: the `FromBytes` future carries no version
field, and the call site `T::decode(this.dims, buf)` at `iter.rs:162` passes
two arguments where the `Data` trait at `lib.rs:41` requires
`decode(version, dims, buf)`. The dims are supplied by the engine from
context, as claimed; the stored format version is not, contradicting both the
claim and the crate's own trait declaration. -/
theorem decode_gets_dims_and_buf_only {T : Type}
    (decodeCall : List Nat → Bytes → Except IoErr T)
    (dims : List Nat) (len : Nat) (buf : Bytes) :
    fromBytesPoll decodeCall dims len (.ok (len, buf)) = decodeCall dims buf := by
  unfold fromBytesPoll
  dsimp only
  rw [if_neg (by simp)]

/-- C7: the storage contract's `hint_is_valid` defaults to `true` at every
coordinate, so a backend that does not override it always lets the cache
trust an already-loaded chunk. -/
theorem hint_default_always_true :
    ∀ pos : List Nat, hint_is_valid_default pos = true
      ∧ cacheTrustsLoaded hint_is_valid_default pos = true :=
  fun _ => ⟨rfl, rfl⟩

/-- C10: for the built-in `[u64; DIMS]` implementation of the record contract,
`decode` ignores the version and the payload bytes and returns exactly the
supplied dimensional values, `encode` writes no bytes, and decoding the
dimensions of any array `x` — at any version, from any buffer, in particular
from the (empty) output of `encode` — yields `x` itself: the
encode/decode round trip is the identity. -/
theorem array_roundtrip_identity (DIMS : Nat) (x : List Nat)
    (hx : x.length = DIMS) (v : Nat) (buf buf0 : Bytes) :
    arrayEncode x buf0 = .ok buf0
      ∧ arrayDecode DIMS v (dimsOfArray DIMS x) buf = .value (.ok x) := by
  refine ⟨rfl, ?_⟩
  have hd : dimsOfArray DIMS x = x := by
    subst hx
    exact range_map_getD x
  rw [hd]
  unfold arrayDecode
  rw [if_pos hx]

/-- Witness for C10 at the spec's scenario record: the 2-dimensional array
`(5, 3)`, decoded at version 9 from the buffer left by `encode`. -/
theorem array_roundtrip_identity_w :
    arrayEncode [5, 3] [] = .ok []
      ∧ arrayDecode 2 9 (dimsOfArray 2 [5, 3]) [1, 2] = .value (.ok [5, 3]) :=
  array_roundtrip_identity 2 [5, 3] rfl 9 [1, 2] []

end SubDB
